import Mathlib

/-!
Verification development for the `smart-contract-engineering` utilities
(`src/utils/w3_utils.py` and `src/utils/contract_utils.py`).

The Python code is shallowly embedded as pure Lean functions.  Effects are
made explicit:
  - Python dicts are insertion-ordered association lists (`Dict`);
  - the remote RPC node is a `NodeState` record threaded through `send_tx`
    (nonce queries, broadcast counting, mining outcomes);
  - HTTP responses of the verification API are supplied as environment
    records (`ApiResp`, `VerifyEnv`, `AbiApiEnv`);
  - the filesystem ABI cache is an association list from paths to contents,
    with the JSON dump/load round-trip modelled as the identity on values;
  - exceptions (`raise`, `assert`, `StopIteration`) become `Except`.
-/

namespace SCE

/-- Values stored in Python dictionaries of the embedded code: strings,
integers, and opaque compiler/ABI artifacts identified by a tag. -/
inductive PyVal where
  | str : String → PyVal
  | nat : Nat → PyVal
  | solc : String → PyVal
deriving DecidableEq, Repr

/-- A Python `dict` with string keys, as an insertion-ordered association
list without duplicate keys observable through `dictGet?`. -/
abbrev Dict := List (String × PyVal)

/-- Python `d[k] = v`: overwrite in place if the key exists (keeping its
position), otherwise append the new binding at the end. -/
def dictSet {V : Type} (d : List (String × V)) (k : String) (v : V) :
    List (String × V) :=
  match d with
  | [] => [(k, v)]
  | (k1, v1) :: rest =>
      if k1 = k then (k, v) :: rest else (k1, v1) :: dictSet rest k v

/-- Python `d.get(k)` / `d[k]`: first binding of the key, if any. -/
def dictGet? {V : Type} (d : List (String × V)) (k : String) : Option V :=
  match d with
  | [] => none
  | (k1, v1) :: rest => if k1 = k then some v1 else dictGet? rest k

theorem dictGet?_dictSet_self {V : Type} (d : List (String × V)) (k : String) (v : V) :
    dictGet? (dictSet d k v) k = some v := by
  induction d with
  | nil => simp [dictSet, dictGet?]
  | cons kv rest ih =>
      obtain ⟨k1, v1⟩ := kv
      by_cases h : k1 = k
      · simp [dictSet, dictGet?, h]
      · simp [dictSet, dictGet?, h, ih]

theorem dictGet?_dictSet_ne {V : Type} (d : List (String × V)) (k k' : String) (v : V)
    (h : k' ≠ k) : dictGet? (dictSet d k v) k' = dictGet? d k' := by
  induction d with
  | nil => simp [dictSet, dictGet?, Ne.symm h]
  | cons kv rest ih =>
      obtain ⟨k1, v1⟩ := kv
      by_cases h1 : k1 = k
      · subst h1
        simp [dictSet, dictGet?, Ne.symm h]
      · simp [dictSet, dictGet?, h1, ih]

theorem length_dictSet_of_get_none {V : Type} (d : List (String × V)) (k : String) (v : V)
    (h : dictGet? d k = none) : (dictSet d k v).length = d.length + 1 := by
  induction d with
  | nil => simp [dictSet]
  | cons kv rest ih =>
      obtain ⟨k1, v1⟩ := kv
      by_cases h1 : k1 = k
      · simp [dictGet?, h1] at h
      · simp [dictGet?, h1] at h
        simp [dictSet, h1, ih h]

/-! ## Transaction submitter: `send_tx` (w3_utils.py lines 53-83)

The remote node is modelled explicitly.  `get_transaction_count` answers a
nonce query for the configured account at block tag `"pending"` or
`"latest"`.  Broadcasting a signed transaction whose nonce was fetched from
the pending count bumps the pending count by one, and since
`wait_for_transaction_receipt` blocks until the transaction is mined, the
confirmed count catches up as well; this is the standard single-actor node
semantics assumed by the code (one signer, one process).  Mining outcomes
are supplied by the environment as a function `mine` from the transaction's
nonce to its receipt.  Signing is local and not further modelled. -/

/-- Environment configuration read from `.env`: `ACCOUNT1` and `CHAIN_ID`. -/
structure W3Config where
  account : String
  chainId : Nat
deriving DecidableEq, Repr

/-- Nonce state of the remote node for the configured account, plus a
counter of raw-transaction broadcasts it has received from this process. -/
structure NodeState where
  pendingNonce : Nat
  confirmedNonce : Nat
  broadcastCount : Nat
deriving DecidableEq, Repr

/-- `w3.eth.get_transaction_count(account, block_tag)`: the pending-inclusive
count for tag `"pending"`, the confirmed count otherwise. -/
def get_transaction_count (node : NodeState) (blockTag : String) : Nat :=
  if blockTag = "pending" then node.pendingNonce else node.confirmedNonce

/-- A mined transaction receipt (the fields the code reads). -/
structure TxReceipt where
  status : Nat
  contractAddress : Option String
deriving DecidableEq, Repr

/-- The dict literal passed to `build_transaction` in `send_tx`
(source order: `from`, `chainId`, `nonce`). -/
def sendFields (cfg : W3Config) (nonce : Nat) : Dict :=
  [("from", PyVal.str cfg.account), ("chainId", PyVal.nat cfg.chainId),
   ("nonce", PyVal.nat nonce)]

/-- web3's `ContractFunction.build_transaction` (external collaborator):
fills the builder's encoded fields with the caller-supplied overrides. -/
def build_transaction (builder : Dict) (overrides : Dict) : Dict :=
  overrides.foldl (fun d kv => dictSet d kv.1 kv.2) builder

/-- Everything observable about one `send_tx` call: the result (receipt or
the `assert`-failure), the transaction dict as finally populated, the nonce
used, and the node state afterwards. -/
structure SendOutcome where
  result : Except String TxReceipt
  tx : Dict
  usedNonce : Nat
  node : NodeState
deriving Repr

/-- `send_tx(transaction, build_tx=True)` from w3_utils.py: fetch the
pending-inclusive nonce, finalize a builder (or merge `chainId`, `from`,
`nonce` into a pre-encoded dict, in source order), sign, broadcast, wait
for the receipt, and `assert tx_receipt['status'] == 1`. -/
def send_tx (cfg : W3Config) (node : NodeState) (mine : Nat → TxReceipt)
    (transaction : Dict) (build_tx : Bool) : SendOutcome :=
  let nonce := get_transaction_count node "pending"
  let tx :=
    if build_tx then
      build_transaction transaction (sendFields cfg nonce)
    else
      dictSet (dictSet (dictSet transaction "chainId" (PyVal.nat cfg.chainId))
        "from" (PyVal.str cfg.account)) "nonce" (PyVal.nat nonce)
  let node1 : NodeState :=
    { pendingNonce := nonce + 1
      confirmedNonce := nonce + 1
      broadcastCount := node.broadcastCount + 1 }
  let receipt := mine nonce
  { result :=
      if receipt.status = 1 then Except.ok receipt
      else Except.error "AssertionError: tx_receipt status != 1"
    tx := tx
    usedNonce := nonce
    node := node1 }

/-- C2: if the mined receipt's status is 1, `send_tx` returns that receipt;
if it is not 1 it fails with the assertion error; any returned receipt has
status 1 and is the mined receipt; and exactly one broadcast happens per
call (no retry or resubmission). -/
theorem send_tx_asserts_receipt_status (cfg : W3Config) (node : NodeState)
    (mine : Nat → TxReceipt) (transaction : Dict) (build_tx : Bool) :
    ((mine (get_transaction_count node "pending")).status = 1 →
      (send_tx cfg node mine transaction build_tx).result =
        Except.ok (mine (get_transaction_count node "pending")))
    ∧ ((mine (get_transaction_count node "pending")).status ≠ 1 →
      (send_tx cfg node mine transaction build_tx).result =
        Except.error "AssertionError: tx_receipt status != 1")
    ∧ (∀ r, (send_tx cfg node mine transaction build_tx).result = Except.ok r →
      r.status = 1 ∧ r = mine (get_transaction_count node "pending"))
    ∧ (send_tx cfg node mine transaction build_tx).node.broadcastCount =
        node.broadcastCount + 1 := by
  refine ⟨fun h => ?_, fun h => ?_, fun r hr => ?_, ?_⟩
  · simp [send_tx, h]
  · simp [send_tx, h]
  · by_cases h : (mine (get_transaction_count node "pending")).status = 1
    · simp [send_tx, h] at hr
      exact ⟨hr ▸ h, hr.symm⟩
    · simp [send_tx, h] at hr
  · simp [send_tx]

/-- Witness for C2 at a concrete failing input: a receipt with status 0
makes `send_tx` fail with the assertion error. -/
theorem send_tx_asserts_receipt_status_witness :
    (send_tx ⟨"0xA1", 11155111⟩ ⟨5, 5, 0⟩ (fun _ => ⟨0, none⟩) [] true).result =
      Except.error "AssertionError: tx_receipt status != 1" :=
  (send_tx_asserts_receipt_status ⟨"0xA1", 11155111⟩ ⟨5, 5, 0⟩
    (fun _ => ⟨0, none⟩) [] true).2.1 (by decide)

/-- C3: `send_tx` uses the pending-inclusive nonce query, populates the
`from`, `chainId` and `nonce` fields of the transaction (on both the
builder path and the pre-encoded path), and for two sequential calls from
the same signer with no external transactions in between, the second
call's nonce is exactly one greater than the first's. -/
theorem send_tx_pending_nonce_sequential (cfg : W3Config) (node : NodeState)
    (mine1 mine2 : Nat → TxReceipt) (tx1 tx2 : Dict) (b1 b2 : Bool) :
    (send_tx cfg node mine1 tx1 b1).usedNonce = get_transaction_count node "pending"
    ∧ dictGet? (send_tx cfg node mine1 tx1 b1).tx "from" = some (PyVal.str cfg.account)
    ∧ dictGet? (send_tx cfg node mine1 tx1 b1).tx "chainId" = some (PyVal.nat cfg.chainId)
    ∧ dictGet? (send_tx cfg node mine1 tx1 b1).tx "nonce" =
        some (PyVal.nat (send_tx cfg node mine1 tx1 b1).usedNonce)
    ∧ (send_tx cfg (send_tx cfg node mine1 tx1 b1).node mine2 tx2 b2).usedNonce =
        (send_tx cfg node mine1 tx1 b1).usedNonce + 1 := by
  refine ⟨rfl, ?_, ?_, ?_, ?_⟩
  · cases b1 with
    | false =>
        simp [send_tx, dictGet?_dictSet_ne _ _ _ _ (by decide : ("from" : String) ≠ "nonce"),
          dictGet?_dictSet_self]
    | true =>
        simp [send_tx, build_transaction, sendFields, List.foldl,
          dictGet?_dictSet_ne _ _ _ _ (by decide : ("from" : String) ≠ "nonce"),
          dictGet?_dictSet_ne _ _ _ _ (by decide : ("from" : String) ≠ "chainId"),
          dictGet?_dictSet_self]
  · cases b1 with
    | false =>
        simp [send_tx,
          dictGet?_dictSet_ne _ _ _ _ (by decide : ("chainId" : String) ≠ "nonce"),
          dictGet?_dictSet_ne _ _ _ _ (by decide : ("chainId" : String) ≠ "from"),
          dictGet?_dictSet_self]
    | true =>
        simp [send_tx, build_transaction, sendFields, List.foldl,
          dictGet?_dictSet_ne _ _ _ _ (by decide : ("chainId" : String) ≠ "nonce"),
          dictGet?_dictSet_self]
  · cases b1 with
    | false => simp [send_tx, dictGet?_dictSet_self]
    | true =>
        simp [send_tx, build_transaction, sendFields, List.foldl, dictGet?_dictSet_self]
  · simp [send_tx, get_transaction_count]

/-- C10: with `build_tx=False`, `send_tx` sets the `chainId`, `from` and
`nonce` keys of the caller's pre-encoded transaction dict (overwriting any
values the caller had set for them) and leaves every other key unchanged. -/
theorem send_tx_prebuilt_frame (cfg : W3Config) (node : NodeState)
    (mine : Nat → TxReceipt) (transaction : Dict) (k : String)
    (h1 : k ≠ "chainId") (h2 : k ≠ "from") (h3 : k ≠ "nonce") :
    dictGet? (send_tx cfg node mine transaction false).tx "chainId" =
        some (PyVal.nat cfg.chainId)
    ∧ dictGet? (send_tx cfg node mine transaction false).tx "from" =
        some (PyVal.str cfg.account)
    ∧ dictGet? (send_tx cfg node mine transaction false).tx "nonce" =
        some (PyVal.nat (get_transaction_count node "pending"))
    ∧ dictGet? (send_tx cfg node mine transaction false).tx k =
        dictGet? transaction k := by
  refine ⟨?_, ?_, ?_, ?_⟩
  · simp [send_tx,
      dictGet?_dictSet_ne _ _ _ _ (by decide : ("chainId" : String) ≠ "nonce"),
      dictGet?_dictSet_ne _ _ _ _ (by decide : ("chainId" : String) ≠ "from"),
      dictGet?_dictSet_self]
  · simp [send_tx,
      dictGet?_dictSet_ne _ _ _ _ (by decide : ("from" : String) ≠ "nonce"),
      dictGet?_dictSet_self]
  · simp [send_tx, dictGet?_dictSet_self]
  · simp [send_tx, dictGet?_dictSet_ne _ _ _ _ h3, dictGet?_dictSet_ne _ _ _ _ h2,
      dictGet?_dictSet_ne _ _ _ _ h1]

/-- Witness for C10: on a pre-encoded dict with `to`, `value` and a stale
`nonce`, the three managed keys are overwritten while `to` is untouched. -/
theorem send_tx_prebuilt_frame_witness :
    ("to" : String) ≠ "chainId"
    ∧ (dictGet? (send_tx ⟨"0xA1", 11155111⟩ ⟨7, 7, 0⟩ (fun _ => ⟨1, none⟩)
        [("to", PyVal.str "0xB2"), ("value", PyVal.nat 5), ("nonce", PyVal.nat 99)]
        false).tx "chainId" = some (PyVal.nat 11155111)
      ∧ dictGet? (send_tx ⟨"0xA1", 11155111⟩ ⟨7, 7, 0⟩ (fun _ => ⟨1, none⟩)
        [("to", PyVal.str "0xB2"), ("value", PyVal.nat 5), ("nonce", PyVal.nat 99)]
        false).tx "from" = some (PyVal.str "0xA1")
      ∧ dictGet? (send_tx ⟨"0xA1", 11155111⟩ ⟨7, 7, 0⟩ (fun _ => ⟨1, none⟩)
        [("to", PyVal.str "0xB2"), ("value", PyVal.nat 5), ("nonce", PyVal.nat 99)]
        false).tx "nonce" =
          some (PyVal.nat (get_transaction_count ⟨7, 7, 0⟩ "pending"))
      ∧ dictGet? (send_tx ⟨"0xA1", 11155111⟩ ⟨7, 7, 0⟩ (fun _ => ⟨1, none⟩)
        [("to", PyVal.str "0xB2"), ("value", PyVal.nat 5), ("nonce", PyVal.nat 99)]
        false).tx "to" =
          dictGet? [("to", PyVal.str "0xB2"), ("value", PyVal.nat 5),
            ("nonce", PyVal.nat 99)] "to") :=
  ⟨by decide,
   send_tx_prebuilt_frame ⟨"0xA1", 11155111⟩ ⟨7, 7, 0⟩ (fun _ => ⟨1, none⟩)
     [("to", PyVal.str "0xB2"), ("value", PyVal.nat 5), ("nonce", PyVal.nat 99)]
     "to" (by decide) (by decide) (by decide)⟩

/-! ## Verification workflow: `deploy_and_verify` (w3_utils.py lines 198-284)

Only the verification phase is embedded here: the compile step is
`compile_contract` below, the deploy step is `send_tx` above, and the
contract address (freshly deployed or supplied by the caller) is a
parameter.  The Etherscan HTTP API is an environment: one response for the
`verifysourcecode` POST and one response per `checkverifystatus` poll.
The Python loop `for _ in range(10)` that polls the job status is embedded
as the fuel recursion `verify_poll_loop`; alongside the result it reports
how many status queries were actually issued. -/

/-- A JSON response from the Etherscan API: its `status` flag and its
`result` text (a guid, an ABI, an error message, or a progress message). -/
structure ApiResp where
  status : String
  result : String
deriving DecidableEq, Repr

/-- Whether `pat` occurs as a contiguous sublist of the second argument. -/
def listContainsSub (pat : List Char) : List Char → Bool
  | [] => pat.isEmpty
  | c :: rest => pat.isPrefixOf (c :: rest) || listContainsSub pat rest

/-- Python's substring test `pat in s`. -/
def containsSubstring (s pat : String) : Bool :=
  listContainsSub pat.data s.data

/-- Responses of the verification API during one `deploy_and_verify` run:
the acknowledgment of the source submission, and the i-th status poll. -/
structure VerifyEnv where
  submitResp : ApiResp
  polls : Nat → ApiResp

/-- The value returned by `w3.eth.contract(address=..., abi=...)`. -/
structure ContractHandle where
  address : String
  abi : PyVal
deriving DecidableEq, Repr

/-- The `for _ in range(10)` status-poll loop of `deploy_and_verify`,
with fuel: on each iteration query the status; `status == "1"` breaks out
of the loop, a result containing `"Pending"` continues, anything else
raises.  When the fuel runs out the loop simply ends (the source falls
through with no error).  Returns the loop outcome together with the number
of status queries issued. -/
def verify_poll_loop (polls : Nat → ApiResp) (i : Nat) :
    Nat → Except String Unit × Nat
  | 0 => (Except.ok (), 0)
  | fuel + 1 =>
      let status := polls i
      if status.status = "1" then (Except.ok (), 1)
      else if containsSubstring status.result "Pending" then
        let r := verify_poll_loop polls (i + 1) fuel
        (r.1, r.2 + 1)
      else (Except.error ("Verification failed: " ++ status.result), 1)

/-- The verification phase of `deploy_and_verify`: submit the source
payload, raise if the acknowledgment's status flag is not `"1"`, otherwise
take the guid and poll up to 10 times; on loop success or fall-through
return the contract handle bound to the address and compiled ABI.  The
second component counts the status polls issued. -/
def deploy_and_verify (env : VerifyEnv) (contract_address : String)
    (compiled_abi : PyVal) : Except String ContractHandle × Nat :=
  if env.submitResp.status ≠ "1" then
    (Except.error ("Verification submission failed: " ++ env.submitResp.result), 0)
  else
    match verify_poll_loop env.polls 0 10 with
    | (Except.ok _, n) => (Except.ok ⟨contract_address, compiled_abi⟩, n)
    | (Except.error e, n) => (Except.error e, n)

/-- C4: a non-success acknowledgment of the source submission raises
immediately, carrying the API's result message, with zero status polls
performed; and whenever any poll is performed the acknowledgment was
successful. -/
theorem deploy_and_verify_submission_gate (env : VerifyEnv)
    (contract_address : String) (compiled_abi : PyVal) :
    (env.submitResp.status ≠ "1" →
      deploy_and_verify env contract_address compiled_abi =
        (Except.error ("Verification submission failed: " ++ env.submitResp.result), 0))
    ∧ (env.submitResp.status = "1" →
      1 ≤ (deploy_and_verify env contract_address compiled_abi).2) := by
  constructor
  · intro h
    simp [deploy_and_verify, h]
  · intro h
    have hloop : 1 ≤ (verify_poll_loop env.polls 0 10).2 := by
      show 1 ≤ (verify_poll_loop env.polls 0 (9 + 1)).2
      rw [verify_poll_loop]
      by_cases h1 : (env.polls 0).status = "1"
      · simp [h1]
      · by_cases h2 : containsSubstring (env.polls 0).result "Pending"
        · simp [h1, h2]
        · simp [h1, h2]
    rcases hv : verify_poll_loop env.polls 0 10 with ⟨r, n⟩
    cases r with
    | ok u => simpa [deploy_and_verify, h, hv] using hloop
    | error e => simpa [deploy_and_verify, h, hv] using hloop

/-- Witness for C4: a rejected submission (status "0") raises with the
API's message and polls zero times. -/
theorem deploy_and_verify_submission_gate_witness :
    deploy_and_verify ⟨⟨"0", "Invalid API Key"⟩, fun _ => ⟨"0", "Pending"⟩⟩
        "0xC3" (PyVal.solc "abi") =
      (Except.error ("Verification submission failed: " ++ "Invalid API Key"), 0) :=
  (deploy_and_verify_submission_gate ⟨⟨"0", "Invalid API Key"⟩, fun _ => ⟨"0", "Pending"⟩⟩
    "0xC3" (PyVal.solc "abi")).1 (by decide)

/-- If every poll the loop can reach reports a still-pending job (status
flag not `"1"` and a result containing `"Pending"`), the loop exhausts its
fuel, issues exactly `fuel` queries, and ends without an error. -/
theorem verify_poll_loop_all_pending (polls : Nat → ApiResp) (fuel : Nat) :
    ∀ i : Nat,
      (∀ j, i ≤ j → j < i + fuel →
        (polls j).status ≠ "1" ∧ containsSubstring (polls j).result "Pending" = true) →
      verify_poll_loop polls i fuel = (Except.ok (), fuel) := by
  induction fuel with
  | zero => intro i _; rfl
  | succ m ih =>
      intro i h
      have hi := h i (Nat.le_refl i) (by omega)
      rw [verify_poll_loop]
      simp only [hi.1, hi.2, if_neg, if_pos, ite_true, ite_false]
      have := ih (i + 1) (fun j hj1 hj2 => h j (by omega) (by omega))
      simp [hi.1, hi.2, this]

/-- C1 as stated is false on the code; amended: after a successful
submission, if all 10 bounded polls report a pending job, the loop
exhausts its attempts and `deploy_and_verify` silently returns the
contract handle — no error is raised on timeout. -/
theorem deploy_and_verify_pending_exhaustion_returns_handle (env : VerifyEnv)
    (contract_address : String) (compiled_abi : PyVal)
    (hsub : env.submitResp.status = "1")
    (hpend : ∀ j, j < 10 →
      (env.polls j).status ≠ "1" ∧ containsSubstring (env.polls j).result "Pending" = true) :
    deploy_and_verify env contract_address compiled_abi =
      (Except.ok ⟨contract_address, compiled_abi⟩, 10) := by
  have hloop := verify_poll_loop_all_pending env.polls 10 0
    (fun j _ hj2 => hpend j (by omega))
  simp [deploy_and_verify, hsub, hloop]

/-- Witness for the amended C1: submission accepted, then every poll says
"Pending in queue"; the workflow returns the bound handle after 10 polls. -/
theorem deploy_and_verify_pending_exhaustion_returns_handle_witness :
    deploy_and_verify ⟨⟨"1", "guid123"⟩, fun _ => ⟨"0", "Pending in queue"⟩⟩
        "0xC1" (PyVal.solc "abi") =
      (Except.ok ⟨"0xC1", PyVal.solc "abi"⟩, 10) :=
  deploy_and_verify_pending_exhaustion_returns_handle
    ⟨⟨"1", "guid123"⟩, fun _ => ⟨"0", "Pending in queue"⟩⟩ "0xC1" (PyVal.solc "abi")
    (by decide) (by decide)

/-- Counterexample to C1 as stated: with a successful submission and 10
consecutive "Pending" polls, `deploy_and_verify` does NOT fail — it
returns a contract handle (the claim asserts this run ends in an error). -/
theorem deploy_and_verify_pending_exhaustion_counterexample :
    (deploy_and_verify ⟨⟨"1", "guid123"⟩, fun _ => ⟨"0", "Pending in queue"⟩⟩
        "0xC1cex" (PyVal.solc "abi")).1 =
      Except.ok ⟨"0xC1cex", PyVal.solc "abi"⟩ := by
  rfl

/-! ## ABI cache / loader: `load_verified_contract_abi` (w3_utils.py lines 124-154)

The filesystem is an association list from file paths to stored ABI
values; `json.dump` followed by `json.load` round-trips a JSON value, so
the cache is modelled as storing the parsed ABI value itself (as a
string, standing for its canonical JSON serialization).  Checksumming is
an external RPC-utility function supplied as a parameter, and the
`getabi` endpoint is an environment function from the queried address to
its response. -/

/-- The `getabi` side of the Etherscan API: response per queried address. -/
structure AbiApiEnv where
  api : String → ApiResp

/-- What one `load_verified_contract_abi` call did: its result, the
filesystem afterwards, and how many network calls it made. -/
structure LoadAbiOutcome where
  result : Except String String
  fs : List (String × String)
  networkCalls : Nat
deriving Repr

/-- `load_verified_contract_abi(contract_address, cache_dir)`: checksum the
address, look for `{cache_dir}/{address}.json`; on a hit return the cached
ABI with no network call; on a miss query `getabi` once, raise if its
status flag is not `"1"`, otherwise write the ABI to the cache file and
return it. -/
def load_verified_contract_abi (checksum : String → String) (env : AbiApiEnv)
    (fs : List (String × String)) (cache_dir contract_address0 : String) :
    LoadAbiOutcome :=
  let contract_address := checksum contract_address0
  let cache_path := cache_dir ++ "/" ++ contract_address ++ ".json"
  match dictGet? fs cache_path with
  | some cached => { result := Except.ok cached, fs := fs, networkCalls := 0 }
  | none =>
      let data := env.api contract_address
      if data.status ≠ "1" then
        { result := Except.error
            ("Failed to fetch ABI for " ++ contract_address ++ ": " ++ data.result)
          fs := fs
          networkCalls := 1 }
      else
        { result := Except.ok data.result
          fs := dictSet fs cache_path data.result
          networkCalls := 1 }

/-- C5: on a cache miss with a successful API response, the first call
performs exactly one network call, writes exactly one cache file (keyed by
the checksummed address), and returns the fetched ABI; the second call for
the same address performs zero network calls and returns identical ABI
content; and when the API reports no ABI the call raises instead of
returning one. -/
theorem load_verified_contract_abi_cache_first (checksum : String → String)
    (env : AbiApiEnv) (fs : List (String × String)) (cache_dir addr : String)
    (hmiss : dictGet? fs (cache_dir ++ "/" ++ checksum addr ++ ".json") = none) :
    ((env.api (checksum addr)).status = "1" →
      (load_verified_contract_abi checksum env fs cache_dir addr).networkCalls = 1
      ∧ (load_verified_contract_abi checksum env fs cache_dir addr).result =
          Except.ok (env.api (checksum addr)).result
      ∧ (load_verified_contract_abi checksum env fs cache_dir addr).fs =
          dictSet fs (cache_dir ++ "/" ++ checksum addr ++ ".json")
            (env.api (checksum addr)).result
      ∧ (load_verified_contract_abi checksum env fs cache_dir addr).fs.length =
          fs.length + 1
      ∧ (load_verified_contract_abi checksum env
          (load_verified_contract_abi checksum env fs cache_dir addr).fs
          cache_dir addr).networkCalls = 0
      ∧ (load_verified_contract_abi checksum env
          (load_verified_contract_abi checksum env fs cache_dir addr).fs
          cache_dir addr).result =
          (load_verified_contract_abi checksum env fs cache_dir addr).result)
    ∧ ((env.api (checksum addr)).status ≠ "1" →
      (load_verified_contract_abi checksum env fs cache_dir addr).result =
        Except.error ("Failed to fetch ABI for " ++ checksum addr ++ ": "
          ++ (env.api (checksum addr)).result)
      ∧ (load_verified_contract_abi checksum env fs cache_dir addr).fs = fs) := by
  constructor
  · intro hok
    have h1 : load_verified_contract_abi checksum env fs cache_dir addr =
        { result := Except.ok (env.api (checksum addr)).result
          fs := dictSet fs (cache_dir ++ "/" ++ checksum addr ++ ".json")
            (env.api (checksum addr)).result
          networkCalls := 1 } := by
      simp [load_verified_contract_abi, hmiss, hok]
    refine ⟨by rw [h1], by rw [h1], by rw [h1], ?_, ?_, ?_⟩
    · rw [h1]
      exact length_dictSet_of_get_none fs _ _ hmiss
    · rw [h1]
      simp [load_verified_contract_abi, dictGet?_dictSet_self]
    · rw [h1]
      simp [load_verified_contract_abi, dictGet?_dictSet_self]
  · intro hbad
    simp [load_verified_contract_abi, hmiss, hbad]

/-- Witness for C5 at a concrete environment: an empty cache, one verified
address whose ABI is `[]`, exercised twice. -/
theorem load_verified_contract_abi_cache_first_witness :
    dictGet? ([] : List (String × String)) ("./.abi_cache" ++ "/" ++
        (fun a => a) "0xD4" ++ ".json") = none
    ∧ ((((fun _ => (⟨"1", "[]"⟩ : ApiResp)) : String → ApiResp) "0xD4").status = "1" →
      (load_verified_contract_abi (fun a => a) ⟨fun _ => ⟨"1", "[]"⟩⟩ []
          "./.abi_cache" "0xD4").networkCalls = 1
      ∧ (load_verified_contract_abi (fun a => a) ⟨fun _ => ⟨"1", "[]"⟩⟩ []
          "./.abi_cache" "0xD4").result =
          Except.ok ((⟨fun _ => ⟨"1", "[]"⟩⟩ : AbiApiEnv).api ((fun a => a) "0xD4")).result
      ∧ (load_verified_contract_abi (fun a => a) ⟨fun _ => ⟨"1", "[]"⟩⟩ []
          "./.abi_cache" "0xD4").fs =
          dictSet [] ("./.abi_cache" ++ "/" ++ (fun a => a) "0xD4" ++ ".json")
            ((⟨fun _ => ⟨"1", "[]"⟩⟩ : AbiApiEnv).api ((fun a => a) "0xD4")).result
      ∧ (load_verified_contract_abi (fun a => a) ⟨fun _ => ⟨"1", "[]"⟩⟩ []
          "./.abi_cache" "0xD4").fs.length = ([] : List (String × String)).length + 1
      ∧ (load_verified_contract_abi (fun a => a) ⟨fun _ => ⟨"1", "[]"⟩⟩
          (load_verified_contract_abi (fun a => a) ⟨fun _ => ⟨"1", "[]"⟩⟩ []
            "./.abi_cache" "0xD4").fs "./.abi_cache" "0xD4").networkCalls = 0
      ∧ (load_verified_contract_abi (fun a => a) ⟨fun _ => ⟨"1", "[]"⟩⟩
          (load_verified_contract_abi (fun a => a) ⟨fun _ => ⟨"1", "[]"⟩⟩ []
            "./.abi_cache" "0xD4").fs "./.abi_cache" "0xD4").result =
          (load_verified_contract_abi (fun a => a) ⟨fun _ => ⟨"1", "[]"⟩⟩ []
            "./.abi_cache" "0xD4").result) :=
  ⟨rfl,
   (load_verified_contract_abi_cache_first (fun a => a) ⟨fun _ => ⟨"1", "[]"⟩⟩ []
     "./.abi_cache" "0xD4" rfl).1⟩

/-! ## Compiler adapter: `compile_contract` (contract_utils.py lines 44-154)

The solcx toolchain is an external collaborator, embedded as an
environment: the ordered qualified names of the compiled units
(`compiled_sol`, a Python dict in insertion order), the parsed metadata of
each unit (`json.loads` of its `metadata` output), and each unit's value
for each requested output key (solcx returns exactly the requested
output keys per unit).  Reading the source file and the `foundry.toml`
remappings only feed the compiler invocation and are not further
modelled.  Python's `str.endswith` and `str.split(":")[-1]` are embedded
structurally on the character lists. -/

/-- Python's `s.endswith(suf)`. -/
def strEndsWith (s suf : String) : Bool :=
  suf.data.isSuffixOf s.data

/-- The characters after the last `':'` (the whole list when there is no
`':'`): Python's `s.split(":")[-1]`. -/
def afterLastColon (l : List Char) : List Char :=
  l.foldl (fun acc c => if c = ':' then [] else acc ++ [c]) []

/-- Python's `qname.split(":")[-1]`. -/
def lastColonSegment (s : String) : String :=
  ⟨afterLastColon s.data⟩

/-- Parsed compiler metadata: the fields `compile_contract` reads from
`json.loads(compiled_sol[name]["metadata"])`. -/
structure SolcMetadata where
  compilerVersion : String
  optimizerEnabled : Bool
  optimizerRuns : Nat
deriving DecidableEq, Repr

/-- The solcx toolchain for one `compile_source` invocation. -/
structure SolcxEnv where
  units : List String
  metadata : String → SolcMetadata
  fieldVal : String → String → PyVal
  contractSource : String

/-- Everything observable about one `compile_contract` call: the returned
artifact dict (or the `StopIteration` from a failed name resolution), the
output-value list as passed to the compiler, the qualified name selected
in `compiled_sol`, and the state of the caller's `output_values` list
after the call (the code appends to it in place). -/
structure CompileOutcome where
  result : Except String Dict
  requested : List String
  selected : Option String
  output_values : List String

/-- `compile_contract(contract_path, version, contract_name, output_values,
...)` from contract_utils.py: default the output values to `[abi, bin]`,
append `metadata` (and remember to strip it later) unless the caller asked
for it, compile, resolve the unit — the first key ending in
`":" + contract_name"`, or the first unit when no name is given — read the
compiler version and optimizer settings from the unit's metadata, and
build the result dict, copying over every requested output except the
fields marked for removal. -/
def compile_contract (env : SolcxEnv) (contract_name : Option String)
    (output_values0 : Option (List String)) : CompileOutcome :=
  let ov0 := output_values0.getD ["abi", "bin"]
  let ov := if "metadata" ∈ ov0 then ov0 else ov0 ++ ["metadata"]
  let remove_fields : List String := if "metadata" ∈ ov0 then [] else ["metadata"]
  let selected : Option String :=
    match contract_name with
    | some n => env.units.find? (fun k => strEndsWith k (":" ++ n))
    | none => env.units.head?
  let result : Except String Dict :=
    match selected with
    | none => Except.error "StopIteration"
    | some qname =>
        let md := env.metadata qname
        let base : Dict :=
          [("contract_name", PyVal.str (lastColonSegment qname)),
           ("compiler_version", PyVal.str ("v" ++ md.compilerVersion)),
           ("optimize", PyVal.nat (if md.optimizerEnabled then 1 else 0)),
           ("optimizer_runs", PyVal.nat md.optimizerRuns),
           ("contract_source", PyVal.str env.contractSource)]
        let unitItems : Dict := ov.map (fun k => (k, env.fieldVal qname k))
        Except.ok
          ((unitItems.filter (fun kv => !(remove_fields.contains kv.1))).foldl
            (fun d kv => dictSet d kv.1 kv.2) base)
  { result := result
    requested := ov
    selected := selected
    output_values := ov }

theorem dictGet?_foldl_dictSet_of_not_mem {V : Type} (kvs : List (String × V))
    (base : List (String × V)) (k : String) (h : ∀ kv ∈ kvs, kv.1 ≠ k) :
    dictGet? (kvs.foldl (fun d kv => dictSet d kv.1 kv.2) base) k = dictGet? base k := by
  induction kvs generalizing base with
  | nil => rfl
  | cons a rest ih =>
      simp only [List.foldl]
      rw [ih _ (fun kv hkv => h kv (List.mem_cons_of_mem a hkv))]
      exact dictGet?_dictSet_ne base a.1 k a.2
        (Ne.symm (h a (List.mem_cons_self a rest)))

theorem isSome_dictGet?_foldl_dictSet {V : Type} (kvs : List (String × V))
    (base : List (String × V)) (k : String) (h : k ∈ kvs.map Prod.fst) :
    (dictGet? (kvs.foldl (fun d kv => dictSet d kv.1 kv.2) base) k).isSome := by
  induction kvs generalizing base with
  | nil => simp at h
  | cons a rest ih =>
      simp only [List.foldl]
      by_cases hk : k ∈ rest.map Prod.fst
      · exact ih _ hk
      · have ha : a.1 = k := by
          simp only [List.map_cons, List.mem_cons] at h
          rcases h with h1 | h1
          · exact h1.symm
          · exact absurd h1 hk
        have hrest : ∀ kv ∈ rest, kv.1 ≠ k := by
          intro kv hkv he
          exact hk (he ▸ List.mem_map_of_mem Prod.fst hkv)
        rw [dictGet?_foldl_dictSet_of_not_mem rest _ k hrest]
        subst ha
        rw [dictGet?_dictSet_self base a.1 a.2]
        rfl

theorem compile_fold_lookup_of_not_requested (f : String → PyVal)
    (ov rem : List String) (base : Dict) (s : String) (hs : s ∉ ov) :
    dictGet? (((ov.map (fun k => (k, f k))).filter
        (fun kv => !(rem.contains kv.1))).foldl (fun d kv => dictSet d kv.1 kv.2) base) s
      = dictGet? base s := by
  apply dictGet?_foldl_dictSet_of_not_mem
  intro kv hkv he
  obtain ⟨k, hk, hes⟩ := List.mem_map.mp (List.mem_of_mem_filter hkv)
  apply hs
  rw [← he, ← hes]
  exact hk

theorem compile_fold_lookup_isSome_of_kept (f : String → PyVal)
    (ov rem : List String) (base : Dict) (s : String) (hs : s ∈ ov)
    (hrem : rem.contains s = false) :
    (dictGet? (((ov.map (fun k => (k, f k))).filter
        (fun kv => !(rem.contains kv.1))).foldl (fun d kv => dictSet d kv.1 kv.2) base)
      s).isSome := by
  apply isSome_dictGet?_foldl_dictSet
  refine List.mem_map.mpr ⟨(s, f s), ?_, rfl⟩
  refine List.mem_filter.mpr ⟨List.mem_map.mpr ⟨s, hs, rfl⟩, ?_⟩
  show (!(rem.contains s)) = true
  rw [hrem]
  rfl

theorem compile_fold_lookup_of_removed (f : String → PyVal)
    (ov rem : List String) (base : Dict) (s : String) (hs : rem.contains s = true) :
    dictGet? (((ov.map (fun k => (k, f k))).filter
        (fun kv => !(rem.contains kv.1))).foldl (fun d kv => dictSet d kv.1 kv.2) base) s
      = dictGet? base s := by
  apply dictGet?_foldl_dictSet_of_not_mem
  intro kv hkv he
  have h2 := (List.mem_filter.mp hkv).2
  rw [he, hs] at h2
  simp at h2

/-- C6: with `contract_name` given, `compile_contract` selects a compiled
unit whose qualified name ends with `":" ++ contract_name`, and fails with
the `StopIteration` of the exhausted search when no unit's qualified name
has that suffix; with `contract_name` omitted, the first compiled unit of
the compiler's output is selected. -/
theorem compile_contract_name_resolution (env : SolcxEnv)
    (ov0 : Option (List String)) (n : String) :
    ((∃ k ∈ env.units, strEndsWith k (":" ++ n) = true) →
      ∃ q, (compile_contract env (some n) ov0).selected = some q
        ∧ strEndsWith q (":" ++ n) = true ∧ q ∈ env.units)
    ∧ ((∀ k ∈ env.units, strEndsWith k (":" ++ n) = false) →
      (compile_contract env (some n) ov0).result = Except.error "StopIteration")
    ∧ (compile_contract env none ov0).selected = env.units.head? := by
  refine ⟨fun h => ?_, fun h => ?_, ?_⟩
  · have hsome : (env.units.find? (fun k => strEndsWith k (":" ++ n))).isSome := by
      rw [List.find?_isSome]
      obtain ⟨k, hk, hp⟩ := h
      exact ⟨k, hk, hp⟩
    obtain ⟨q, hq⟩ := Option.isSome_iff_exists.mp hsome
    have hp := List.find?_some hq
    have hmem := List.mem_of_find?_eq_some hq
    refine ⟨q, ?_, hp, hmem⟩
    simp [compile_contract, hq]
  · have hnone : env.units.find? (fun k => strEndsWith k (":" ++ n)) = none := by
      rw [List.find?_eq_none]
      intro k hk
      simp [h k hk]
    simp [compile_contract, hnone]
  · rcases hh : env.units.head? with _ | q <;> simp [compile_contract, hh]

/-- C7: `compile_contract` always asks the compiler for the `metadata`
output even when the caller did not; in the returned artifact the
`compiler_version` carries a leading "v" and the optimizer settings are
taken from the selected unit's metadata; and the `metadata` key is present
in the returned dict exactly when the caller explicitly listed it in
`output_values`. -/
theorem compile_contract_metadata_handling (env : SolcxEnv)
    (contract_name : Option String) (ov0 : Option (List String))
    (hv : "compiler_version" ∉ ov0.getD ["abi", "bin"])
    (ho : "optimize" ∉ ov0.getD ["abi", "bin"])
    (hr : "optimizer_runs" ∉ ov0.getD ["abi", "bin"]) :
    "metadata" ∈ (compile_contract env contract_name ov0).requested
    ∧ (∀ d q, (compile_contract env contract_name ov0).result = Except.ok d →
        (compile_contract env contract_name ov0).selected = some q →
        dictGet? d "compiler_version" =
            some (PyVal.str ("v" ++ (env.metadata q).compilerVersion))
        ∧ dictGet? d "optimize" =
            some (PyVal.nat (if (env.metadata q).optimizerEnabled then 1 else 0))
        ∧ dictGet? d "optimizer_runs" = some (PyVal.nat (env.metadata q).optimizerRuns)
        ∧ ((dictGet? d "metadata").isSome ↔ "metadata" ∈ ov0.getD ["abi", "bin"])) := by
  by_cases hm : "metadata" ∈ ov0.getD ["abi", "bin"]
  · constructor
    · simp [compile_contract, hm]
    · intro d q hd hq
      simp only [compile_contract, hm, if_pos] at hd hq
      rw [hq] at hd
      simp only [Except.ok.injEq] at hd
      subst hd
      refine ⟨?_, ?_, ?_, ?_⟩
      · rw [compile_fold_lookup_of_not_requested _ _ _ _ _ hv]
        rfl
      · rw [compile_fold_lookup_of_not_requested _ _ _ _ _ ho]
        rfl
      · rw [compile_fold_lookup_of_not_requested _ _ _ _ _ hr]
        rfl
      · simp only [hm, iff_true]
        exact compile_fold_lookup_isSome_of_kept _ _ _ _ _ hm rfl
  · constructor
    · simp [compile_contract, hm]
    · intro d q hd hq
      simp only [compile_contract, hm, if_neg, if_false, ite_false] at hd hq
      rw [hq] at hd
      simp only [Except.ok.injEq] at hd
      subst hd
      have hv1 : "compiler_version" ∉ ov0.getD ["abi", "bin"] ++ ["metadata"] := by
        simp [hv]
      have ho1 : "optimize" ∉ ov0.getD ["abi", "bin"] ++ ["metadata"] := by
        simp [ho]
      have hr1 : "optimizer_runs" ∉ ov0.getD ["abi", "bin"] ++ ["metadata"] := by
        simp [hr]
      refine ⟨?_, ?_, ?_, ?_⟩
      · rw [compile_fold_lookup_of_not_requested _ _ _ _ _ hv1]
        rfl
      · rw [compile_fold_lookup_of_not_requested _ _ _ _ _ ho1]
        rfl
      · rw [compile_fold_lookup_of_not_requested _ _ _ _ _ hr1]
        rfl
      · simp only [hm, iff_false]
        rw [compile_fold_lookup_of_removed _ _ _ _ _ (by rfl)]
        simp [dictGet?]

/-- C9: when the caller passes an `output_values` list that does not
contain "metadata", `compile_contract` appends "metadata" to that list in
place, so after the call the caller's list has exactly one extra element. -/
theorem compile_contract_appends_metadata_to_output_values (env : SolcxEnv)
    (contract_name : Option String) (l : List String) (h : "metadata" ∉ l) :
    (compile_contract env contract_name (some l)).output_values = l ++ ["metadata"]
    ∧ (compile_contract env contract_name (some l)).output_values.length =
        l.length + 1 := by
  have h1 : (compile_contract env contract_name (some l)).output_values =
      l ++ ["metadata"] := by
    simp [compile_contract, h]
  exact ⟨h1, by rw [h1]; simp⟩

/-- A sample two-unit compiler run, for exercising the theorems above on
concrete inputs. -/
def sampleSolcx : SolcxEnv :=
  ⟨["A.sol:Foo", "A.sol:Bar"], fun _ => ⟨"0.8.26", true, 200⟩,
   fun _ k => PyVal.solc k, "src"⟩

/-- Witness for C6: the name "Bar" matches the second unit's qualified
suffix in the sample run. -/
theorem compile_contract_name_resolution_witness :
    (∃ k ∈ sampleSolcx.units, strEndsWith k (":" ++ "Bar") = true)
    ∧ (∃ q, (compile_contract sampleSolcx (some "Bar") none).selected = some q
        ∧ strEndsWith q (":" ++ "Bar") = true ∧ q ∈ sampleSolcx.units) :=
  ⟨by decide,
   (compile_contract_name_resolution sampleSolcx none "Bar").1 (by decide)⟩

/-- Witness for C7 at the default `output_values=None`: the side
conditions (the compiler's output selectors never collide with the base
result keys) hold by computation. -/
theorem compile_contract_metadata_handling_witness :
    (("compiler_version" ∉ (none : Option (List String)).getD ["abi", "bin"])
      ∧ ("optimize" ∉ (none : Option (List String)).getD ["abi", "bin"])
      ∧ ("optimizer_runs" ∉ (none : Option (List String)).getD ["abi", "bin"]))
    ∧ ("metadata" ∈ (compile_contract sampleSolcx (some "Foo") none).requested
      ∧ (∀ d q, (compile_contract sampleSolcx (some "Foo") none).result = Except.ok d →
          (compile_contract sampleSolcx (some "Foo") none).selected = some q →
          dictGet? d "compiler_version" =
              some (PyVal.str ("v" ++ (sampleSolcx.metadata q).compilerVersion))
          ∧ dictGet? d "optimize" =
              some (PyVal.nat (if (sampleSolcx.metadata q).optimizerEnabled then 1 else 0))
          ∧ dictGet? d "optimizer_runs" =
              some (PyVal.nat (sampleSolcx.metadata q).optimizerRuns)
          ∧ ((dictGet? d "metadata").isSome ↔
              "metadata" ∈ (none : Option (List String)).getD ["abi", "bin"]))) :=
  ⟨⟨by decide, by decide, by decide⟩,
   compile_contract_metadata_handling sampleSolcx (some "Foo") none
     (by decide) (by decide) (by decide)⟩

/-- Witness for C9: a caller-owned list `["abi"]` grows to
`["abi", "metadata"]`. -/
theorem compile_contract_appends_metadata_to_output_values_witness :
    ("metadata" ∉ (["abi"] : List String))
    ∧ ((compile_contract sampleSolcx none (some ["abi"])).output_values =
        ["abi"] ++ ["metadata"]
      ∧ (compile_contract sampleSolcx none (some ["abi"])).output_values.length =
        (["abi"] : List String).length + 1) :=
  ⟨by decide,
   compile_contract_appends_metadata_to_output_values sampleSolcx none ["abi"]
     (by decide)⟩

/-! ## Proxy implementation resolution: `get_proxy_impl_address`
(w3_utils.py lines 172-185, slot constant at lines 37-38)

The proxy's verified ABI is a list of entries with a `type` and a `name`;
the `implementation()` view-call result and the node's storage are
supplied by the environment.  Addresses are 160-bit numbers (checksumming
only changes the hex spelling, not the value).  A storage slot holds a
32-byte word; taking the last 40 hex characters of its 64-hex-character
spelling is reduction modulo 2^160. -/

/-- One entry of a contract ABI (the fields the code reads). -/
structure AbiEntry where
  type : String
  name : String
deriving DecidableEq, Repr

/-- The EIP-1967 implementation slot,
`keccak256("eip1967.proxy.implementation") - 1` (keccak evaluated by the
external library; the source records this expected value in the adjacent
comment). -/
def _IMPL_SLOT : Nat :=
  0x360894a13ba1a3210667c828492db98dca3e2076cc3735a920a3ca505d382bbc

/-- Environment of one `get_proxy_impl_address` call: the proxy's verified
ABI, the result of `implementation().call()`, and the node's storage. -/
structure ProxyEnv where
  abi : List AbiEntry
  implementationCall : Nat
  storageAt : Nat → Nat

/-- `get_proxy_impl_address(proxy_address)`: if the proxy's ABI has a
function named `implementation`, return that view call's result; otherwise
read the EIP-1967 slot (a 32-byte word), raise if it is all-zero, else
derive the address from its low 20 bytes. -/
def get_proxy_impl_address (env : ProxyEnv) : Except String Nat :=
  if env.abi.any (fun f => f.type == "function" && f.name == "implementation") then
    Except.ok env.implementationCall
  else if env.storageAt _IMPL_SLOT % 2 ^ 256 = 0 then
    Except.error "Got 0x0 for impl address of proxy"
  else
    Except.ok (env.storageAt _IMPL_SLOT % 2 ^ 256 % 2 ^ 160)

/-- C8: when the ABI exposes a function named `implementation`, the view
call's result is returned; otherwise the EIP-1967 slot is read, an
all-zero slot value raises, and a nonzero slot value yields the address
given by the low 20 bytes of the 32-byte slot word. -/
theorem get_proxy_impl_address_resolution (env : ProxyEnv) :
    (env.abi.any (fun f => f.type == "function" && f.name == "implementation") = true →
      get_proxy_impl_address env = Except.ok env.implementationCall)
    ∧ (env.abi.any (fun f => f.type == "function" && f.name == "implementation") = false →
      env.storageAt _IMPL_SLOT % 2 ^ 256 = 0 →
      get_proxy_impl_address env = Except.error "Got 0x0 for impl address of proxy")
    ∧ (env.abi.any (fun f => f.type == "function" && f.name == "implementation") = false →
      env.storageAt _IMPL_SLOT % 2 ^ 256 ≠ 0 →
      get_proxy_impl_address env = Except.ok (env.storageAt _IMPL_SLOT % 2 ^ 160)) := by
  refine ⟨fun h => ?_, fun h h0 => ?_, fun h h0 => ?_⟩
  · simp only [get_proxy_impl_address]
    rw [if_pos h]
  · simp only [get_proxy_impl_address]
    rw [if_neg (by simp [h]), if_pos h0]
  · have hmod : env.storageAt _IMPL_SLOT % 2 ^ 256 % 2 ^ 160 =
        env.storageAt _IMPL_SLOT % 2 ^ 160 :=
      Nat.mod_mod_of_dvd _ (by norm_num)
    simp only [get_proxy_impl_address]
    rw [if_neg (by simp [h]), if_neg h0, hmod]

/-- Witness for C8: a proxy whose verified ABI has no `implementation`
function and whose EIP-1967 slot holds a nonzero word; the address is its
low 20 bytes. -/
theorem get_proxy_impl_address_resolution_witness :
    ((([⟨"event", "Upgraded"⟩] : List AbiEntry).any
        (fun f => f.type == "function" && f.name == "implementation") = false)
      ∧ (fun _ => (2 ^ 200 + 0xABCD : Nat)) _IMPL_SLOT % 2 ^ 256 ≠ 0)
    ∧ get_proxy_impl_address ⟨[⟨"event", "Upgraded"⟩], 7, fun _ => 2 ^ 200 + 0xABCD⟩ =
        Except.ok ((fun _ => (2 ^ 200 + 0xABCD : Nat)) _IMPL_SLOT % 2 ^ 160) :=
  ⟨⟨by decide, by norm_num⟩,
   (get_proxy_impl_address_resolution
     ⟨[⟨"event", "Upgraded"⟩], 7, fun _ => 2 ^ 200 + 0xABCD⟩).2.2
     (by decide) (by norm_num)⟩

end SCE
